import Mathlib

/-!
Verification of the `unihedron-sqm` repository (SQM sky-quality-meter driver).

Shallow embedding of the Python sources `sqm/sqm.py` and `sqm/web.py`:
Python floats are modelled as rationals (`ℚ`), Python strings as `List Char`
(via `String.data`), fallible Python code (exceptions) as `Option`/`Except`.
Each definition carries a note naming the source function it embeds.
-/

namespace SQM

/-! ### Python string primitives -/

/-- Python whitespace test used by `str.strip()` (ASCII subset that occurs
in the device frames and log files handled by this program). -/
def isPySpace (c : Char) : Bool :=
  c = ' ' || c = '\t' || c = '\n' || c = '\r'

/-- Left part of Python `str.strip()`. -/
def stripLeft (cs : List Char) : List Char :=
  cs.dropWhile isPySpace

/-- Python `str.strip()`: drop leading and trailing whitespace. -/
def pyStrip (cs : List Char) : List Char :=
  ((cs.dropWhile isPySpace).reverse.dropWhile isPySpace).reverse

/-- Python `str.split(sep)` for a one-character separator: keeps empty
pieces, splitting `""` gives `[""]`. -/
def splitOn (sep : Char) : List Char → List (List Char)
  | [] => [[]]
  | c :: cs =>
    if c = sep then [] :: splitOn sep cs
    else
      match splitOn sep cs with
      | [] => [[c]]
      | h :: t => (c :: h) :: t

/-- Python slice `s[:-n]` (empty when `n ≥ len(s)`). -/
def sliceUpToNeg (n : ℕ) (cs : List Char) : List Char :=
  cs.take (cs.length - n)

/-- Decimal digit test. -/
def isDigit (c : Char) : Bool :=
  decide ('0' ≤ c) && decide (c ≤ '9')

/-- Numeric value of a decimal digit character. -/
def charDigit (c : Char) : ℕ :=
  c.toNat - '0'.toNat

/-- Value of a most-significant-first digit string. -/
def digitsToNat (cs : List Char) : ℕ :=
  Nat.ofDigits 10 ((cs.map charDigit).reverse)

/-- Python `float(s)` on the plain decimal notation (no exponent) produced
by the device and by the log writer: unsigned part after the sign.  The
value `I.F` is the rational `(I·10^|F| + F) / 10^|F|`. -/
def pyFloatUnsigned (cs : List Char) : Option ℚ :=
  let ip := cs.takeWhile isDigit
  let rest := cs.dropWhile isDigit
  match rest with
  | [] => if ip = [] then none else some (mkRat (digitsToNat ip) 1)
  | '.' :: fp =>
    if fp.all isDigit ∧ (ip ≠ [] ∨ fp ≠ []) then
      some (mkRat (digitsToNat ip * 10 ^ fp.length + digitsToNat fp) (10 ^ fp.length))
    else none
  | _ => none

/-- Python `float(s)`: strips whitespace, optional sign, decimal notation.
`none` models the `ValueError` that `float` raises on malformed input. -/
def pyFloat (cs0 : List Char) : Option ℚ :=
  match pyStrip cs0 with
  | [] => pyFloatUnsigned []
  | c :: rest =>
    if c = '-' then (pyFloatUnsigned rest).map (fun q => -q)
    else if c = '+' then pyFloatUnsigned rest
    else pyFloatUnsigned (c :: rest)

/-- Python `int(s)`: strips whitespace, optional sign, decimal digits only.
`none` models the `ValueError` raised on malformed input. -/
def pyInt (cs0 : List Char) : Option ℤ :=
  match pyStrip cs0 with
  | '-' :: rest =>
    if rest ≠ [] ∧ rest.all isDigit then some (-(digitsToNat rest : ℤ)) else none
  | '+' :: rest =>
    if rest ≠ [] ∧ rest.all isDigit then some ((digitsToNat rest : ℤ)) else none
  | cs => if cs ≠ [] ∧ cs.all isDigit then some ((digitsToNat cs : ℤ)) else none

/-! ### Reading messages (`UnihedronSQM.process_data`, sqm.py lines 261-278) -/

/-- The four recognized measurement fields of a `Report.values` dict. -/
structure Values where
  temp_sensor : ℚ
  freq_sensor : ℚ
  ticks_uC : ℚ
  sky_brightness : ℚ
deriving DecidableEq, Repr

/-- Field extraction of `process_data` (sqm.py lines 262-268): strip the
frame, split on the separator, strip the unit suffix (`[:-1]`, but `[:-2]`
for the frequency field) and parse each field as a float.  `none` models an
`IndexError` or `ValueError` escaping. -/
def parseReading (msg : String) : Option (ℚ × ℚ × ℚ × ℚ × ℚ) := do
  let s := splitOn ',' (pyStrip msg.data)
  let sky_brightness ← pyFloat (sliceUpToNeg 1 (← s.get? 1))
  let freq_sensor ← pyFloat (sliceUpToNeg 2 (← s.get? 2))
  let ticks_uC ← pyFloat (sliceUpToNeg 1 (← s.get? 3))
  let period_sensor ← pyFloat (sliceUpToNeg 1 (← s.get? 4))
  let temp_sensor ← pyFloat (sliceUpToNeg 1 (← s.get? 5))
  return (sky_brightness, freq_sensor, ticks_uC, period_sensor, temp_sensor)

/-- Value computation of `process_data` (sqm.py lines 270-278): the
low-frequency crossover and the result mapping. -/
def processValues (sky freq ticks period temp : ℚ) : Values :=
  let freq2 := if freq < 30 ∧ 0 < period then 1 / period else freq
  { temp_sensor := temp, freq_sensor := freq2, ticks_uC := ticks, sky_brightness := sky }

/-- `UnihedronSQM.process_data` (sqm.py lines 261-278). -/
def process_data (msg : String) : Option Values :=
  (parseReading msg).map fun (sky, freq, ticks, period, temp) =>
    processValues sky freq ticks period temp

/-- The raw reading frame of the spec's scenario, after decoding. -/
def scenarioFrame : String :=
  "r, 19.80m,0012.50Hz,00125278,000.0000s, 024.8C\n"

/-- A reading frame exercising the low-frequency crossover branch. -/
def lowFreqFrame : String :=
  "r, 19.80m,0010.00Hz,0000010c,0002.0000s, 024.8C\n"

/-! ### Connection backoff (`UnihedronSQM._poll_thread`, sqm.py lines 119-156) -/

/-- The failure counter and current backoff delay of the polling loop
(the local variables `serial_errors` and `sleep_time` of `_poll_thread`). -/
structure BackoffState where
  serial_errors : ℕ
  sleep_time : ℕ
deriving DecidableEq, Repr

/-- `self._thread_sleep` (sqm.py line 82): the configured minimum delay. -/
def threadSleep : ℕ := 1

/-- `self._max_thread_sleep` (sqm.py line 83): the configured maximum. -/
def maxThreadSleep : ℕ := 900

/-- Initial state on thread start (sqm.py lines 119-120). -/
def backoffInit : BackoffState := ⟨0, threadSleep⟩

/-- One pass of the `serial.SerialException` handler (sqm.py lines
145-152): increment the failure counter; on every 10th consecutive
failure, double the delay if it is below the maximum, else reset it to
the minimum. -/
def failStep (st : BackoffState) : BackoffState :=
  let e := st.serial_errors + 1
  if e % 10 = 0 then
    if st.sleep_time < maxThreadSleep then ⟨e, st.sleep_time * 2⟩
    else ⟨e, threadSleep⟩
  else ⟨e, st.sleep_time⟩

/-- Successful connection (sqm.py lines 141-143): counter and delay both
reset to the configured minimum. -/
def successStep (_st : BackoffState) : BackoffState := ⟨0, threadSleep⟩

/-- The backoff states the polling loop can reach. -/
inductive BackoffReachable : BackoffState → Prop
  | init : BackoffReachable backoffInit
  | fail {st} : BackoffReachable st → BackoffReachable (failStep st)
  | success {st} : BackoffReachable st → BackoffReachable (successStep st)

/-! ### Exceptions and the identification exchange (sqm.py) -/

/-- The Python exception kinds that can arise in the polling machinery. -/
inductive PyErr
  | serialException
  | valueError
  | indexError
deriving DecidableEq, Repr

/-- Equality of modelled Python outcomes is decidable. -/
instance exceptDecEq {e a : Type} [DecidableEq e] [DecidableEq a] :
    DecidableEq (Except e a) := fun x y =>
  match x, y with
  | Except.ok u, Except.ok v =>
    if h : u = v then isTrue (by rw [h]) else isFalse (by intro hh; cases hh; exact h rfl)
  | Except.ok _, Except.error _ => isFalse (by intro hh; cases hh)
  | Except.error _, Except.ok _ => isFalse (by intro hh; cases hh)
  | Except.error u, Except.error v =>
    if h : u = v then isTrue (by rw [h]) else isFalse (by intro hh; cases hh; exact h rfl)

/-- Python `s[i]` on a list: an out-of-range index raises `IndexError`. -/
def pyIndex (s : List (List Char)) (i : ℕ) : Except PyErr (List Char) :=
  match s.get? i with
  | some x => Except.ok x
  | none => Except.error PyErr.indexError

/-- Python `int(s)` in an exception-propagating context: a malformed
field raises `ValueError`. -/
def pyIntE (cs : List Char) : Except PyErr ℤ :=
  match pyInt cs with
  | some n => Except.ok n
  | none => Except.error PyErr.valueError

/-- `UnihedronSQM.process_metadata` (sqm.py lines 207-216): split the
identification frame on the separator and parse four integer fields; any
raised exception propagates to the caller. -/
def process_metadata (msg : String) : Except PyErr (ℤ × ℤ × ℤ × ℤ) := do
  let s := splitOn ',' (pyStrip msg.data)
  let protocol_number ← pyIntE (← pyIndex s 1)
  let model_number ← pyIntE (← pyIndex s 2)
  let feature_number ← pyIntE (← pyIndex s 3)
  let serial_number ← pyIntE (← pyIndex s 4)
  return (protocol_number, model_number, feature_number, serial_number)

/-- How one `read_metadata` call reacts to the received message
(sqm.py lines 224-229). -/
inductive MetaOutcome
  | processed
  | retry
  | giveUp
deriving DecidableEq, Repr

/-- One `read_metadata` exchange (sqm.py lines 218-229) on received
message `msg` with retry budget `tries`: a message containing the tag
character is handed to `process_metadata` (whose exception propagates);
otherwise, with budget left, the code reconnects and retries; with the
budget exhausted it silently returns. -/
def read_metadata_step (msg : String) (tries : ℕ) : Except PyErr MetaOutcome :=
  if 'i' ∈ msg.data then
    (process_metadata msg).map fun _ => MetaOutcome.processed
  else if 0 < tries then Except.ok MetaOutcome.retry
  else Except.ok MetaOutcome.giveUp

/-- The only exception handler in the polling loop (sqm.py lines 137-156)
catches exactly `serial.SerialException`; every other exception escapes
`_poll_thread` and terminates the polling thread. -/
def poll_thread_catches : PyErr → Bool
  | PyErr.serialException => true
  | _ => false

/-- Number of `ix` command/response exchanges performed by
`read_metadata tries` against a device whose replies never contain the
expected tag, truncated at call depth `fuel`: each failed attempt first
calls `_connect_serial`, which restarts `read_metadata` with a fresh
budget of 10 (sqm.py line 194) — counted here one fuel level down — and
then retries with `tries - 1` (sqm.py lines 227-229).  Truncation only
loses attempts, so for every `fuel` this is a lower bound on the number
of exchanges of the untruncated recursion. -/
def metaAttempts : ℕ → ℕ → ℕ
  | 0, _ => 0
  | fuel + 1, tries =>
    1 + if 0 < tries then metaAttempts fuel 10 + metaAttempts fuel (tries - 1) else 0

/-! ### Reading acquisition and the poll body (sqm.py) -/

/-- How one `read_data` call reacts to the received message
(sqm.py lines 286-293). -/
inductive ReadStep
  | done (data : Option Values)
  | retry
deriving DecidableEq, Repr

/-- One `read_data` exchange (sqm.py lines 280-293) on received message
`msg` with retry budget `tries`: a message containing the tag character
is parsed by `process_data` (a parse exception propagates); otherwise,
with budget left, the code reconnects and retries; with the budget
exhausted the call returns `None`. -/
def read_data_step (msg : String) (tries : ℕ) : Except PyErr ReadStep :=
  if 'r' ∈ msg.data then
    match process_data msg with
    | some v => Except.ok (ReadStep.done (some v))
    | none => Except.error PyErr.valueError
  else if 0 < tries then Except.ok ReadStep.retry
  else Except.ok (ReadStep.done none)

/-- A `datetime.datetime` value at seconds precision. -/
structure DateTime where
  year : ℕ
  month : ℕ
  day : ℕ
  hour : ℕ
  minute : ℕ
  second : ℕ
deriving DecidableEq, Repr

/-- Mixed-radix key of a timestamp: for calendar-valid components this
is strictly monotone in the `datetime` comparison order used by
`sorted(key=lambda h: h.time)`. -/
def DateTime.key (t : DateTime) : ℕ :=
  t.second + 60 * (t.minute + 60 * (t.hour + 24 * (t.day + 32 * (t.month + 13 * t.year))))

/-- The all-zero default `values` mapping of `Report.__init__`
(sqm.py lines 17-22). -/
def defaultValues : Values :=
  { temp_sensor := 0, freq_sensor := 0, ticks_uC := 0, sky_brightness := 0 }

/-- `Report` (sqm.py lines 12-24): a values mapping and a creation time. -/
structure Report where
  values : Values
  time : DateTime
deriving DecidableEq, Repr

/-- `Report(data)` as constructed by the poll body (sqm.py line 162):
`data` is whatever `read_data` returned; a `None` values argument is
replaced by the all-zero default mapping (sqm.py lines 14-23). -/
def mkReport (data : Option Values) (now : DateTime) : Report :=
  { values := data.getD defaultValues, time := now }

/-- The reports passed to the registered callback during one pass of the
steady-state poll body with an open connection (sqm.py lines 158-165),
as a function of the value `read_data` returned on line 161: line 162
invokes the callback unconditionally, exactly once. -/
def pollCallbackReports (data : Option Values) (now : DateTime) : List Report :=
  [mkReport data now]

/-! ### Averaging, history and the persisted log (web.py) -/

/-- Decimal digit characters of `n`, most significant first; empty for
zero. -/
def natToChars (n : ℕ) : List Char :=
  ((Nat.digits 10 n).map Nat.digitChar).reverse

/-- Decimal printing with `"0"` for zero. -/
def natChars (n : ℕ) : List Char :=
  if n = 0 then ['0'] else natToChars n

/-- Zero-padded decimal printing of width `w` (`strftime` zero-pads every
numeric directive). -/
def padChars (w : ℕ) (n : ℕ) : List Char :=
  List.replicate (w - (natToChars n).length) '0' ++ natToChars n

/-- The integer `round(q * 100)` (to nearest): the two-decimal rounding
performed by `"{:.2f}".format` (CPython rounds the underlying binary
double half-to-even; on the exact rational model the tie direction is
immaterial to every statement below). -/
def fix2Int (q : ℚ) : ℤ :=
  round (q * 100)

/-- The rational actually denoted by the two-decimal output of
`"{:.2f}".format(q)`. -/
def fix2Rat (q : ℚ) : ℚ :=
  mkRat (fix2Int q) 100

/-- Characters written by `"{:.2f}".format(q)`: optional minus sign,
integer part, point, exactly two fraction digits. -/
def formatFixed2 (q : ℚ) : List Char :=
  let n := fix2Int q
  let sign : List Char := if n < 0 then ['-'] else []
  sign ++ natChars (n.natAbs / 100) ++ '.' :: padChars 2 (n.natAbs % 100)

/-- The header row written once when the log file is created
(web.py lines 142-143): `f"time,{','.join(COLUMNS)}\n"` with
`COLUMNS` from web.py line 17. -/
def headerLine : String :=
  "time,temp_sensor,freq_sensor,ticks_uC,sky_brightness\n"

/-- `strftime("%Y-%m-%dT%H:%M:%S")` (web.py line 131). -/
def formatTimestamp (t : DateTime) : List Char :=
  padChars 4 t.year ++ '-' :: padChars 2 t.month ++ '-' :: padChars 2 t.day ++
    'T' :: padChars 2 t.hour ++ ':' :: padChars 2 t.minute ++ ':' :: padChars 2 t.second

/-- One data row appended by `sched_callback` (web.py lines 146-149),
trailing newline included: timestamp then the four fields of `COLUMNS`
in order, each formatted to two decimals. -/
def formatRow (t : DateTime) (v : Values) : String :=
  String.mk (formatTimestamp t ++
    ',' :: formatFixed2 v.temp_sensor ++
    ',' :: formatFixed2 v.freq_sensor ++
    ',' :: formatFixed2 v.ticks_uC ++
    ',' :: formatFixed2 v.sky_brightness ++ ['\n'])

/-- Read `w` decimal digits. -/
def parseFixedNat (w : ℕ) (cs : List Char) : Option (ℕ × List Char) :=
  let ds := cs.take w
  if ds.length = w ∧ ds.all isDigit then some (digitsToNat ds, cs.drop w) else none

/-- Expect one literal character. -/
def expectChar (c : Char) : List Char → Option (List Char)
  | x :: rest => if x = c then some rest else none
  | [] => none

/-- `datetime.strptime(s, "%Y-%m-%dT%H:%M:%S")` (web.py line 110):
fixed-width numeric fields between literal separators, with the range
checks `strptime` performs; `none` models the `ValueError` raised on a
mismatch. -/
def parseTimestamp (cs : List Char) : Option DateTime := do
  let (y, cs) ← parseFixedNat 4 cs
  let cs ← expectChar '-' cs
  let (mo, cs) ← parseFixedNat 2 cs
  let cs ← expectChar '-' cs
  let (d, cs) ← parseFixedNat 2 cs
  let cs ← expectChar 'T' cs
  let (h, cs) ← parseFixedNat 2 cs
  let cs ← expectChar ':' cs
  let (mi, cs) ← parseFixedNat 2 cs
  let cs ← expectChar ':' cs
  let (sec, cs) ← parseFixedNat 2 cs
  if cs = [] ∧ 1 ≤ mo ∧ mo ≤ 12 ∧ 1 ≤ d ∧ d ≤ 31 ∧ h ≤ 23 ∧ mi ≤ 59 ∧ sec ≤ 59 then
    some ⟨y, mo, d, h, mi, sec⟩
  else none

/-- Component ranges under which `strftime` output round-trips through
`strptime` (satisfied by every `datetime.utcnow()` value). -/
def TimeValid (t : DateTime) : Prop :=
  t.year ≤ 9999 ∧ 1 ≤ t.month ∧ t.month ≤ 12 ∧ 1 ≤ t.day ∧ t.day ≤ 31 ∧
    t.hour ≤ 23 ∧ t.minute ≤ 59 ∧ t.second ≤ 59

instance (t : DateTime) : Decidable (TimeValid t) := by
  unfold TimeValid
  infer_instance

/-- Parse the value fields and the timestamp of one 5-field data row
(web.py lines 109-110): `zip(COLUMNS, split[1:])` pairs the four columns
with fields 1..4, each parsed by `float`; the timestamp is field 0.
`none` models a `ValueError` escaping `_load_history`. -/
def parseRow (fields : List (List Char)) : Option Report :=
  match fields with
  | [f0, f1, f2, f3, f4] => do
    let temp_sensor ← pyFloat f1
    let freq_sensor ← pyFloat f2
    let ticks_uC ← pyFloat f3
    let sky_brightness ← pyFloat f4
    let t ← parseTimestamp f0
    return { values := { temp_sensor := temp_sensor, freq_sensor := freq_sensor,
                         ticks_uC := ticks_uC, sky_brightness := sky_brightness },
             time := t }
  | _ => none

/-- The per-line loop of `_load_history` (web.py lines 100-111): a row
whose comma-separated field count is not 5 is logged and skipped, and
loading continues; any parse failure on a 5-field row raises and aborts
the load (`none`). -/
def loadLines : List String → Option (List Report)
  | [] => some []
  | line :: rest =>
    let fields := splitOn ',' line.data
    if fields.length ≠ 5 then loadLines rest
    else do
      let r ← parseRow fields
      let rs ← loadLines rest
      return r :: rs

/-- Descending-time comparator of `_crop_history` (web.py line 118):
`sorted(key=lambda h: h.time, reverse=True)`. -/
def newerFirst (a b : Report) : Bool :=
  b.time.key ≤ a.time.key

/-- `Application._crop_history` (web.py lines 116-122): sort by time
descending, truncate to 10 entries. -/
def cropHistory (l : List Report) : List Report :=
  (l.mergeSort newerFirst).take 10

/-- `Application._load_history` (web.py lines 86-114) as a function of
the log file contents (`none` = the file does not exist; each line keeps
its trailing newline), starting from the empty history of `__init__`:
missing file, empty file or wrong header leave the history empty;
otherwise the data rows are loaded and cropped. -/
def loadHistory (file : Option (List String)) : Option (List Report) :=
  match file with
  | none => some []
  | some [] => some []
  | some (h :: rest) =>
    if h = headerLine then (loadLines rest).map cropHistory
    else some []

/-- `np.mean` over a list comprehension (web.py line 130). -/
def listMean (l : List ℚ) : ℚ :=
  l.sum / l.length

/-- The averaged values dict computed by `sched_callback`
(web.py line 130): fieldwise arithmetic mean over the buffer. -/
def avgValues (buffer : List Report) : Values :=
  { temp_sensor := listMean (buffer.map fun b => b.values.temp_sensor),
    freq_sensor := listMean (buffer.map fun b => b.values.freq_sensor),
    ticks_uC := listMean (buffer.map fun b => b.values.ticks_uC),
    sky_brightness := listMean (buffer.map fun b => b.values.sky_brightness) }

/-- The mutable state of `Application` touched by `sched_callback`:
sample buffer, history, whether a log file is configured
(`self.log_file is not None`) and the log file contents
(`none` = the file does not exist). -/
structure WebState where
  buffer : List Report
  history : List Report
  logConfigured : Bool
  logLines : Option (List String)
deriving Repr

/-- `Application.sched_callback` (web.py lines 124-152) with `now` the
value of `datetime.datetime.utcnow()` during the call: no-op on an empty
buffer; otherwise average the buffer, append the averaged report to the
history and crop it, append one row to the log file when configured
(writing the header first when the file does not exist yet), and clear
the buffer. -/
def sched_callback (now : DateTime) (st : WebState) : WebState :=
  if st.buffer = [] then st
  else
    let average := avgValues st.buffer
    let newHistory := cropHistory (st.history ++ [{ values := average, time := now }])
    let newLog :=
      if st.logConfigured then
        let withHeader := match st.logLines with
          | none => [headerLine]
          | some ls => ls
        some (withHeader ++ [formatRow now average])
      else st.logLines
    { buffer := [], history := newHistory,
      logConfigured := st.logConfigured, logLines := newLog }

/-- A concrete timestamp. -/
def sampleTime : DateTime :=
  { year := 2024, month := 1, day := 2, hour := 3, minute := 4, second := 5 }

/-- Three buffered reports whose `sky_brightness` values are
`19.0, 20.0, 21.0` (the spec scenario for averaging). -/
def threeReports : List Report :=
  [{ values := { temp_sensor := 1, freq_sensor := 2, ticks_uC := 3, sky_brightness := 19 },
     time := sampleTime },
   { values := { temp_sensor := 1, freq_sensor := 2, ticks_uC := 3, sky_brightness := 20 },
     time := sampleTime },
   { values := { temp_sensor := 1, freq_sensor := 2, ticks_uC := 3, sky_brightness := 21 },
     time := sampleTime }]

/-! ### Theorems -/

theorem scenario_eval :
    process_data scenarioFrame =
      some ⟨mkRat 248 10, mkRat 25 2, mkRat 12527 1, mkRat 198 10⟩ := by
  decide

/-- C2: for a reading whose parsed `freq_sensor < 30` and parsed
`period_sensor > 0`, `process_data` outputs `freq_sensor = 1/period_sensor`;
for parsed `freq_sensor ≥ 30` the raw value passes through unchanged. -/
theorem freq_crossover (msg : String) (sky freq ticks period temp : ℚ)
    (h : parseReading msg = some (sky, freq, ticks, period, temp)) :
    (freq < 30 → 0 < period →
      process_data msg =
        some { temp_sensor := temp, freq_sensor := 1 / period,
               ticks_uC := ticks, sky_brightness := sky }) ∧
    (30 ≤ freq →
      process_data msg =
        some { temp_sensor := temp, freq_sensor := freq,
               ticks_uC := ticks, sky_brightness := sky }) := by
  constructor
  · intro h1 h2
    simp [process_data, h, processValues, if_pos (show freq < 30 ∧ 0 < period from ⟨h1, h2⟩)]
  · intro h1
    have : ¬(freq < 30 ∧ 0 < period) := fun hc => absurd h1 (not_le.mpr hc.1)
    simp [process_data, h, processValues, if_neg this]

/-- Witness for C2 at the concrete low-frequency frame: `freq = 10 < 30`,
`period = 2 > 0`, so the output frequency is `1/2`. -/
theorem freq_crossover_witness :
    process_data lowFreqFrame =
      some { temp_sensor := mkRat 248 10, freq_sensor := 1 / mkRat 2 1,
             ticks_uC := mkRat 10 1, sky_brightness := mkRat 198 10 } :=
  (freq_crossover lowFreqFrame (mkRat 198 10) (mkRat 10 1) (mkRat 10 1) (mkRat 2 1)
    (mkRat 248 10) (by decide)).1 (by decide) (by decide)

/-- C3, counterexample: on the spec's scenario frame the code strips the
last character of the ticks field (`s[3][:-1]`), so `ticks_uC` parses to
`12527`, not `125278`; the claimed output mapping is not produced. -/
theorem scenario_claim_cex :
    process_data scenarioFrame ≠
      some { temp_sensor := 24.8, freq_sensor := 12.5,
             ticks_uC := 125278, sky_brightness := 19.8 } := by
  rw [scenario_eval]
  intro h
  have h2 := (Option.some_injective _ h)
  have h3 : (mkRat 12527 1 : ℚ) = 125278 := congrArg Values.ticks_uC h2
  norm_num [Rat.mkRat_eq_div] at h3

/-- C3, amended: the scenario frame parses to `sky_brightness = 19.80`,
`freq_sensor = 12.50`, `ticks_uC = 12527` (the trailing character of
`00125278` is stripped as a one-character unit suffix, like the other
non-frequency fields; the frequency field loses two trailing characters),
`temp_sensor = 24.8`, with `freq_sensor` left unchanged because
`period_sensor` parses to `0`. -/
theorem scenario_amended :
    process_data scenarioFrame =
      some { temp_sensor := 24.8, freq_sensor := 12.5,
             ticks_uC := 12527, sky_brightness := 19.8 } := by
  rw [scenario_eval]
  norm_num [Rat.mkRat_eq_div]

theorem failStep_double {st : BackoffState} (h10 : (st.serial_errors + 1) % 10 = 0)
    (hlt : st.sleep_time < maxThreadSleep) :
    failStep st = ⟨st.serial_errors + 1, st.sleep_time * 2⟩ := by
  simp [failStep, h10, hlt]

theorem failStep_reset {st : BackoffState} (h10 : (st.serial_errors + 1) % 10 = 0)
    (hge : ¬ st.sleep_time < maxThreadSleep) :
    failStep st = ⟨st.serial_errors + 1, threadSleep⟩ := by
  simp [failStep, h10, hge]

theorem failStep_same {st : BackoffState} (h10 : (st.serial_errors + 1) % 10 ≠ 0) :
    failStep st = ⟨st.serial_errors + 1, st.sleep_time⟩ := by
  simp [failStep, h10]

theorem backoff_sleep_pow {st : BackoffState} (h : BackoffReachable st) :
    ∃ k : ℕ, k ≤ 10 ∧ st.sleep_time = 2 ^ k := by
  induction h with
  | init => exact ⟨0, by norm_num, rfl⟩
  | success _ _ => exact ⟨0, by norm_num, rfl⟩
  | fail _ ih =>
    obtain ⟨k, hk, hs⟩ := ih
    rename_i st _
    by_cases h10 : (st.serial_errors + 1) % 10 = 0
    · by_cases hlt : st.sleep_time < maxThreadSleep
      · refine ⟨k + 1, ?_, by rw [failStep_double h10 hlt, hs, pow_succ]⟩
        by_contra hge
        have hk10 : 10 ≤ k := by omega
        have : 2 ^ 10 ≤ 2 ^ k := Nat.pow_le_pow_right (by norm_num) hk10
        rw [hs] at hlt
        unfold maxThreadSleep at hlt
        omega
      · refine ⟨0, by norm_num, ?_⟩
        rw [failStep_reset h10 hlt]
        rfl
    · exact ⟨k, hk, by rw [failStep_same h10]; exact hs⟩

set_option maxRecDepth 8000 in
/-- C1, counterexample: after 100 consecutive connection failures from the
initial state the delay is `1024`, exceeding the configured maximum `900`;
ten further failures (with no intervening success) drop it back to `1`,
so the delay is neither bounded by the maximum nor monotonically
non-decreasing until reaching it. -/
theorem backoff_claim_cex :
    (failStep^[100] backoffInit).sleep_time = 1024 ∧
    maxThreadSleep < 1024 ∧
    (failStep^[110] backoffInit).sleep_time = 1 := by
  decide

set_option maxRecDepth 8000 in
/-- C1, amended: the delay starts at the minimum `1`; on every 10th
consecutive failure it doubles while still below the maximum `900`, and
resets to the minimum once at or above it (instead of capping); on other
failures it is unchanged, so it is non-decreasing only while below the
maximum; it never exceeds `1024 = 2^10` but does reach `1024 > 900`; any
success resets counter and delay to the initial values. -/
theorem backoff_amended :
    (∀ st, BackoffReachable st → st.sleep_time ≤ 1024) ∧
    (∀ st : BackoffState, (st.serial_errors + 1) % 10 = 0 →
      st.sleep_time < maxThreadSleep →
      (failStep st).sleep_time = st.sleep_time * 2) ∧
    (∀ st : BackoffState, (st.serial_errors + 1) % 10 = 0 →
      maxThreadSleep ≤ st.sleep_time → (failStep st).sleep_time = threadSleep) ∧
    (∀ st : BackoffState, (st.serial_errors + 1) % 10 ≠ 0 →
      (failStep st).sleep_time = st.sleep_time) ∧
    (∀ st : BackoffState, st.sleep_time < maxThreadSleep →
      st.sleep_time ≤ (failStep st).sleep_time) ∧
    (∀ st, successStep st = backoffInit) ∧
    BackoffReachable (failStep^[100] backoffInit) ∧
    (failStep^[100] backoffInit).sleep_time = 1024 := by
  refine ⟨?_, ?_, ?_, ?_, ?_, ?_, ?_, ?_⟩
  · intro st h
    obtain ⟨k, hk, hs⟩ := backoff_sleep_pow h
    calc st.sleep_time = 2 ^ k := hs
      _ ≤ 2 ^ 10 := Nat.pow_le_pow_right (by norm_num) hk
      _ = 1024 := by norm_num
  · intro st h10 hlt
    simp [failStep, h10, hlt]
  · intro st h10 hge
    simp [failStep, h10, Nat.not_lt.mpr hge]
  · intro st h10
    simp [failStep, h10]
  · intro st hlt
    by_cases h10 : (st.serial_errors + 1) % 10 = 0
    · simp [failStep, h10, hlt]
      omega
    · simp [failStep, h10]
  · intro st
    rfl
  · clear * -
    have : ∀ n, BackoffReachable (failStep^[n] backoffInit) := by
      intro n
      induction n with
      | zero => exact .init
      | succ n ih => rw [Function.iterate_succ_apply']; exact .fail ih
    exact this 100
  · decide

/-- Witness for C1's amended theorem at concrete states: a 10th failure at
delay `4 < 900` doubles it to `8`; a 10th failure at delay `1024 ≥ 900`
resets it to `1`; a non-10th failure keeps delay `4`; the delay `4 < 900`
does not decrease on failure. -/
theorem backoff_amended_witness :
    (failStep ⟨9, 4⟩).sleep_time = 4 * 2 ∧
    (failStep ⟨9, 1024⟩).sleep_time = threadSleep ∧
    (failStep ⟨3, 4⟩).sleep_time = 4 ∧
    (4 : ℕ) ≤ (failStep ⟨9, 4⟩).sleep_time :=
  ⟨backoff_amended.2.1 ⟨9, 4⟩ (by decide) (by decide),
   backoff_amended.2.2.1 ⟨9, 1024⟩ (by decide) (by decide),
   backoff_amended.2.2.2.1 ⟨3, 4⟩ (by decide),
   backoff_amended.2.2.2.2.1 ⟨9, 4⟩ (by decide)⟩

/-- C5, counterexample: a poll cycle in which `read_data` exhausts its
retries and returns `None` (sqm.py line 293) still reaches sqm.py line
162, which invokes the callback once with a `Report` carrying the
all-zero default values — the cycle does result in a callback
invocation, although no parsed reading was acquired. -/
theorem callback_failure_cex :
    read_data_step "x" 0 = Except.ok (ReadStep.done none) ∧
    pollCallbackReports none sampleTime =
      [{ values := defaultValues, time := sampleTime }] ∧
    pollCallbackReports none sampleTime ≠ [] := by
  decide

/-- C5, amended: with an open connection the registered callback is
invoked exactly once per poll cycle, whether or not `read_data` produced
a parsed reading: a successful acquisition delivers its parsed values,
while a cycle whose `read_data` returns `None` after exhausting its
retries delivers a `Report` with the all-zero default values. -/
theorem callback_amended :
    (∀ data now, (pollCallbackReports data now).length = 1) ∧
    (∀ v now, pollCallbackReports (some v) now = [{ values := v, time := now }]) ∧
    (∀ now, pollCallbackReports none now = [{ values := defaultValues, time := now }]) ∧
    (∀ msg, ¬ 'r' ∈ msg.data →
      read_data_step msg 0 = Except.ok (ReadStep.done none)) := by
  refine ⟨fun _ _ => rfl, fun _ _ => rfl, fun _ => rfl, fun msg h => ?_⟩
  simp [read_data_step, h]

/-- Witness for C5's amended theorem: the tagless reply `"x"` with an
exhausted budget makes `read_data` return `None`. -/
theorem callback_amended_witness :
    read_data_step "x" 0 = Except.ok (ReadStep.done none) :=
  callback_amended.2.2.2 "x" (by decide)

/-- C6, counterexample: the identification frame `"i,x,2,3,4"` carries
the right tag but an unparseable numeric field; `process_metadata`
raises `ValueError` (modelled as `Except.error`), which propagates out
of `read_metadata` instead of forcing a reconnect, and the only handler
in the polling loop catches `serial.SerialException` alone — so this
protocol failure is not handled like a connection failure and
terminates the polling thread. -/
theorem protocol_fatal_cex :
    read_metadata_step "i,x,2,3,4" 10 = Except.error PyErr.valueError ∧
    poll_thread_catches PyErr.valueError = false := by
  decide

/-- C6, amended: a wrong-tag identification reply forces a reconnect and
retry while budget remains, and is silently abandoned once the budget is
exhausted (never raising); but an unparseable numeric field in a
tag-matching identification frame raises `ValueError`, which no handler
in the polling loop catches (only `serial.SerialException` is), so that
protocol failure terminates the polling activity. -/
theorem protocol_fatal_amended :
    (∀ msg tries, ¬ 'i' ∈ msg.data → 0 < tries →
      read_metadata_step msg tries = Except.ok MetaOutcome.retry) ∧
    (∀ msg, ¬ 'i' ∈ msg.data →
      read_metadata_step msg 0 = Except.ok MetaOutcome.giveUp) ∧
    read_metadata_step "i,x,2,3,4" 10 = Except.error PyErr.valueError ∧
    poll_thread_catches PyErr.valueError = false ∧
    poll_thread_catches PyErr.serialException = true := by
  refine ⟨?_, ?_, by decide, rfl, rfl⟩
  · intro msg tries h ht
    simp [read_metadata_step, h, ht]
  · intro msg h
    simp [read_metadata_step, h]

/-- Witness for C6's amended theorem: the tagless reply `"x"` causes a
retry with budget left and a silent give-up with the budget exhausted. -/
theorem protocol_fatal_witness :
    read_metadata_step "x" 3 = Except.ok MetaOutcome.retry ∧
    read_metadata_step "x" 0 = Except.ok MetaOutcome.giveUp :=
  ⟨protocol_fatal_amended.1 "x" 3 (by decide) (by decide),
   protocol_fatal_amended.2.1 "x" (by decide)⟩

/-- C7, counterexample: with the initialization budget of 10
(sqm.py line 194), already within call depth 5 against a device whose
replies never match, the `ix` exchange is attempted `31 > 10` times —
each retry forces `_connect_serial`, which restarts the exchange with a
fresh budget — so the total attempts are not bounded by the budget; and
a call whose own budget is exhausted returns silently (`None`) rather
than propagating a failure. -/
theorem retry_budget_cex :
    metaAttempts 5 10 = 31 ∧ 10 < metaAttempts 5 10 ∧
    read_metadata_step "x" 0 = Except.ok MetaOutcome.giveUp := by
  decide

/-- C7, amended: each recursive self-call of `read_metadata` does pass
`tries - 1`, but every retry first forces `_connect_serial`, which
restarts the nested exchange with a fresh budget of 10; against a
persistently failing device the total number of exchanges is therefore
unbounded — at call depth `fuel`, at least `fuel` exchanges are already
performed — and an exhausted budget does not propagate a failure: the
call silently returns. -/
theorem retry_budget_amended :
    (∀ fuel, fuel ≤ metaAttempts fuel 10) ∧
    (∀ msg, ¬ 'i' ∈ msg.data →
      read_metadata_step msg 0 = Except.ok MetaOutcome.giveUp) := by
  constructor
  · intro fuel
    induction fuel with
    | zero => simp [metaAttempts]
    | succ f ih =>
      have h : metaAttempts (f + 1) 10 = 1 + (metaAttempts f 10 + metaAttempts f 9) := by
        simp [metaAttempts]
      omega
  · intro msg h
    simp [read_metadata_step, h]

/-- Witness for C7's amended theorem: the tagless reply `"z"` with an
exhausted budget makes `read_metadata` return silently. -/
theorem retry_budget_witness :
    read_metadata_step "z" 0 = Except.ok MetaOutcome.giveUp :=
  retry_budget_amended.2 "z" (by decide)

theorem newerFirst_trans : ∀ a b c : Report,
    newerFirst a b = true → newerFirst b c = true → newerFirst a c = true := by
  intro a b c h1 h2
  simp only [newerFirst, decide_eq_true_eq] at *
  omega

theorem newerFirst_total : ∀ a b : Report, (newerFirst a b || newerFirst b a) = true := by
  intro a b
  simp only [newerFirst, Bool.or_eq_true, decide_eq_true_eq]
  omega

theorem cropHistory_sorted (l : List Report) :
    List.Pairwise (fun a b => newerFirst a b = true) (l.mergeSort newerFirst) :=
  List.sorted_mergeSort newerFirst_trans newerFirst_total l

/-- C4: after the append-and-crop of a flush, and after loading the
persisted log on restart, the history holds at most 10 entries and is
ordered by time descending, and only the oldest entries beyond capacity
10 are dropped (every dropped entry is at least as old as every kept
one, and kept plus dropped is a permutation of what was appended). -/
theorem history_invariant :
    (∀ l : List Report,
      (cropHistory l).length ≤ 10 ∧
      List.Pairwise (fun a b => b.time.key ≤ a.time.key) (cropHistory l) ∧
      (∀ x ∈ cropHistory l, ∀ y ∈ (l.mergeSort newerFirst).drop 10,
        y.time.key ≤ x.time.key) ∧
      (cropHistory l ++ (l.mergeSort newerFirst).drop 10).Perm l) ∧
    (∀ now st, st.buffer ≠ [] →
      (sched_callback now st).history =
        cropHistory (st.history ++ [{ values := avgValues st.buffer, time := now }])) ∧
    (∀ file hist, loadHistory file = some hist → hist = [] ∨ ∃ l, hist = cropHistory l) := by
  refine ⟨fun l => ⟨?_, ?_, ?_, ?_⟩, ?_, ?_⟩
  · rw [cropHistory, List.length_take]
    exact min_le_left _ _
  · exact (List.Pairwise.sublist (List.take_sublist 10 _) (cropHistory_sorted l)).imp
      (fun h => by simpa [newerFirst] using h)
  · have hp2 : List.Pairwise (fun a b => newerFirst a b = true)
        ((l.mergeSort newerFirst).take 10 ++ (l.mergeSort newerFirst).drop 10) := by
      rw [List.take_append_drop]
      exact cropHistory_sorted l
    intro x hx y hy
    have := (List.pairwise_append.mp hp2).2.2 x hx y hy
    simpa [newerFirst] using this
  · rw [cropHistory, List.take_append_drop]
    exact List.mergeSort_perm l newerFirst
  · intro now st h
    simp [sched_callback, h]
  · intro file hist h
    rcases file with _ | ls
    · simp only [loadHistory] at h
      exact Or.inl (Option.some.inj h).symm
    · rcases ls with _ | ⟨hd, rest⟩
      · simp only [loadHistory] at h
        exact Or.inl (Option.some.inj h).symm
      · by_cases hh : hd = headerLine
        · right
          simp only [loadHistory, hh, if_true] at h
          obtain ⟨a, _, hc⟩ := Option.map_eq_some'.mp h
          exact ⟨a, hc.symm⟩
        · simp only [loadHistory, hh, if_false] at h
          exact Or.inl (Option.some.inj h).symm

/-- Witness for C4 at concrete inputs: a flush of three buffered reports
onto an empty history, and a reload with no log file. -/
theorem history_invariant_witness :
    ((sched_callback sampleTime
        { buffer := threeReports, history := [], logConfigured := false,
          logLines := none }).history =
      cropHistory ([] ++ [{ values := avgValues threeReports, time := sampleTime }])) ∧
    (([] : List Report) = [] ∨ ∃ l, ([] : List Report) = cropHistory l) :=
  ⟨history_invariant.2.1 sampleTime
      { buffer := threeReports, history := [], logConfigured := false, logLines := none }
      (by decide),
   history_invariant.2.2 none [] rfl⟩

/-- C9: a flush of a non-empty buffer appends exactly one averaged
report (timestamped at flush time) to the history and clears the
buffer; each of the four recognized fields of the emitted report is the
arithmetic mean of that field across all buffered reports; in
particular three buffered reports with `sky_brightness` 19, 20, 21
average to `sky_brightness = 20`. -/
theorem flush_mean (now : DateTime) (st : WebState) (h : st.buffer ≠ []) :
    (sched_callback now st).history =
      cropHistory (st.history ++ [{ values := avgValues st.buffer, time := now }]) ∧
    (sched_callback now st).buffer = [] ∧
    (avgValues st.buffer).temp_sensor =
      (st.buffer.map fun b => b.values.temp_sensor).sum / st.buffer.length ∧
    (avgValues st.buffer).freq_sensor =
      (st.buffer.map fun b => b.values.freq_sensor).sum / st.buffer.length ∧
    (avgValues st.buffer).ticks_uC =
      (st.buffer.map fun b => b.values.ticks_uC).sum / st.buffer.length ∧
    (avgValues st.buffer).sky_brightness =
      (st.buffer.map fun b => b.values.sky_brightness).sum / st.buffer.length ∧
    (avgValues threeReports).sky_brightness = 20 := by
  refine ⟨by simp [sched_callback, h], by simp [sched_callback, h], ?_, ?_, ?_, ?_, ?_⟩
  · simp [avgValues, listMean, List.length_map]
  · simp [avgValues, listMean, List.length_map]
  · simp [avgValues, listMean, List.length_map]
  · simp [avgValues, listMean, List.length_map]
  · norm_num [avgValues, listMean, threeReports]

/-- Witness for C9: flushing the three-report buffer empties it. -/
theorem flush_mean_witness :
    (sched_callback sampleTime
      { buffer := threeReports, history := [], logConfigured := false,
        logLines := none }).buffer = [] :=
  (flush_mean sampleTime
    { buffer := threeReports, history := [], logConfigured := false, logLines := none }
    (by decide)).2.1

/-- C10: under a valid header, a data row whose comma-separated field
count is not exactly 5 is skipped (after logging) and loading continues,
so when every 5-field row parses, the loaded sequence is exactly the
parses of the 5-field rows, in order — rows before and after a
malformed one are all loaded. -/
theorem load_skip_malformed (lines : List String)
    (h : ∀ line ∈ lines, (splitOn ',' line.data).length = 5 →
      (parseRow (splitOn ',' line.data)).isSome = true) :
    loadLines lines = some (lines.filterMap fun line =>
      if (splitOn ',' line.data).length = 5 then parseRow (splitOn ',' line.data)
      else none) := by
  induction lines with
  | nil => rfl
  | cons line rest ih =>
    have hrest := fun l hl => h l (List.mem_cons_of_mem _ hl)
    by_cases h5 : (splitOn ',' line.data).length = 5
    · obtain ⟨r, hr⟩ := Option.isSome_iff_exists.mp (h line (List.mem_cons_self _ _) h5)
      simp [loadLines, h5, hr, ih hrest, List.filterMap_cons]
    · simp [loadLines, h5, ih hrest, List.filterMap_cons]

/-- Witness for C10: a malformed row between two well-formed rows is
skipped while both well-formed rows load. -/
theorem load_skip_malformed_witness :
    loadLines ["2024-01-02T03:04:05,1.00,2.00,3.00,4.00\n", "garbage\n",
               "2024-01-02T03:04:06,1.50,2.50,3.50,4.50\n"] =
      some (["2024-01-02T03:04:05,1.00,2.00,3.00,4.00\n", "garbage\n",
             "2024-01-02T03:04:06,1.50,2.50,3.50,4.50\n"].filterMap fun line =>
        if (splitOn ',' line.data).length = 5 then parseRow (splitOn ',' line.data)
        else none) :=
  load_skip_malformed _ (by decide)

theorem charDigit_digitChar : ∀ d : ℕ, d < 10 → charDigit (Nat.digitChar d) = d := by
  decide

theorem isDigit_digitChar : ∀ d : ℕ, d < 10 → isDigit (Nat.digitChar d) = true := by
  decide

theorem natToChars_all_digits (n : ℕ) : (natToChars n).all isDigit = true := by
  rw [natToChars, List.all_reverse, List.all_eq_true]
  intro c hc
  obtain ⟨d, hd, rfl⟩ := List.mem_map.mp hc
  exact isDigit_digitChar d (Nat.digits_lt_base (by norm_num) hd)

theorem digitsToNat_natToChars (n : ℕ) : digitsToNat (natToChars n) = n := by
  have h : ((natToChars n).map charDigit).reverse = Nat.digits 10 n := by
    rw [natToChars, List.map_reverse, List.reverse_reverse, List.map_map]
    calc List.map (charDigit ∘ Nat.digitChar) (Nat.digits 10 n)
        = List.map id (Nat.digits 10 n) :=
          List.map_congr_left
            (fun d hd => charDigit_digitChar d (Nat.digits_lt_base (by norm_num) hd))
      _ = Nat.digits 10 n := List.map_id _
  rw [digitsToNat, h, Nat.ofDigits_digits]

theorem natToChars_length_le (w n : ℕ) (h : n < 10 ^ w) : (natToChars n).length ≤ w := by
  rw [natToChars, List.length_reverse, List.length_map]
  rcases Nat.eq_zero_or_pos n with rfl | hn
  · simp
  · rw [Nat.digits_len 10 n (by norm_num) (Nat.pos_iff_ne_zero.mp hn)]
    have := Nat.log_lt_of_lt_pow (Nat.pos_iff_ne_zero.mp hn) h
    omega

theorem padChars_length (w n : ℕ) (h : n < 10 ^ w) : (padChars w n).length = w := by
  rw [padChars, List.length_append, List.length_replicate]
  have := natToChars_length_le w n h
  omega

theorem padChars_all_digits (w n : ℕ) : (padChars w n).all isDigit = true := by
  rw [padChars, List.all_append, natToChars_all_digits n, Bool.and_true]
  rw [List.all_eq_true]
  intro c hc
  rw [List.eq_of_mem_replicate hc]
  decide

theorem ofDigits_replicate_zero (b k : ℕ) : Nat.ofDigits b (List.replicate k 0) = 0 := by
  induction k with
  | zero => rfl
  | succ k ih => simp [List.replicate_succ, Nat.ofDigits_cons, ih]

theorem digitsToNat_padChars (w n : ℕ) : digitsToNat (padChars w n) = n := by
  have hrep : (List.replicate (w - (natToChars n).length) '0').map charDigit
      = List.replicate (w - (natToChars n).length) 0 := by
    rw [List.map_replicate]
    rfl
  rw [digitsToNat, padChars, List.map_append, List.reverse_append, hrep,
    List.reverse_replicate, Nat.ofDigits_append, ofDigits_replicate_zero,
    Nat.mul_zero, Nat.add_zero]
  exact digitsToNat_natToChars n

theorem parseFixedNat_padChars (w n : ℕ) (h : n < 10 ^ w) (rest : List Char) :
    parseFixedNat w (padChars w n ++ rest) = some (n, rest) := by
  have hlen := padChars_length w n h
  simp only [parseFixedNat, List.take_left' hlen, List.drop_left' hlen]
  rw [if_pos ⟨hlen, padChars_all_digits w n⟩, digitsToNat_padChars]

theorem parseFixedNat_padChars_nil (w n : ℕ) (h : n < 10 ^ w) :
    parseFixedNat w (padChars w n) = some (n, []) := by
  have := parseFixedNat_padChars w n h []
  rwa [List.append_nil] at this

theorem natChars_ne_nil (n : ℕ) : natChars n ≠ [] := by
  rw [natChars]
  by_cases h : n = 0
  · simp [h]
  · rw [if_neg h, natToChars]
    simp only [ne_eq, List.reverse_eq_nil_iff, List.map_eq_nil_iff]
    exact Nat.digits_ne_nil_iff_ne_zero.mpr h

theorem natChars_all_digits (n : ℕ) : (natChars n).all isDigit = true := by
  rw [natChars]
  split
  · decide
  · exact natToChars_all_digits n

theorem digitsToNat_natChars (n : ℕ) : digitsToNat (natChars n) = n := by
  rw [natChars]
  split
  · rename_i h
    rw [h]
    decide
  · exact digitsToNat_natToChars n

set_option maxHeartbeats 1000000 in
theorem parseTimestamp_format (t : DateTime) (h : TimeValid t) :
    parseTimestamp (formatTimestamp t) = some t := by
  obtain ⟨hy, hmo1, hmo2, hd1, hd2, hh, hmi, hs⟩ := h
  have hy4 : t.year < 10 ^ 4 := lt_of_le_of_lt hy (by norm_num)
  have hmo4 : t.month < 10 ^ 2 := lt_of_le_of_lt hmo2 (by norm_num)
  have hd4 : t.day < 10 ^ 2 := lt_of_le_of_lt hd2 (by norm_num)
  have hh4 : t.hour < 10 ^ 2 := lt_of_le_of_lt hh (by norm_num)
  have hmi4 : t.minute < 10 ^ 2 := lt_of_le_of_lt hmi (by norm_num)
  have hs4 : t.second < 10 ^ 2 := lt_of_le_of_lt hs (by norm_num)
  rw [formatTimestamp, parseTimestamp]
  simp only [List.append_assoc, List.cons_append]
  simp [parseFixedNat_padChars 4 t.year hy4, parseFixedNat_padChars 2 t.month hmo4,
    parseFixedNat_padChars 2 t.day hd4, parseFixedNat_padChars 2 t.hour hh4,
    parseFixedNat_padChars 2 t.minute hmi4, parseFixedNat_padChars_nil 2 t.second hs4,
    expectChar, hmo1, hmo2, hd1, hd2, hh, hmi, hs]

theorem dropWhile_eq_self_of_all {p : Char → Bool} {l : List Char}
    (h : l.all (fun c => !p c) = true) : l.dropWhile p = l := by
  cases l with
  | nil => rfl
  | cons c cs =>
    rw [List.all_cons, Bool.and_eq_true] at h
    have hc : p c = false := by
      have := h.1
      simp only [Bool.not_eq_true'] at this
      exact this
    rw [List.dropWhile_cons, hc]
    simp

theorem pyStrip_of_no_space {l : List Char} (h : l.all (fun c => !isPySpace c) = true) :
    pyStrip l = l := by
  rw [pyStrip, dropWhile_eq_self_of_all h,
    dropWhile_eq_self_of_all (by rwa [List.all_reverse]), List.reverse_reverse]

theorem pyStrip_append_newline {l : List Char}
    (h : l.all (fun c => !isPySpace c) = true) : pyStrip (l ++ ['\n']) = l := by
  cases l with
  | nil => rfl
  | cons c cs =>
    have hc : isPySpace c = false := by
      rw [List.all_cons, Bool.and_eq_true] at h
      have := h.1
      simp only [Bool.not_eq_true'] at this
      exact this
    rw [pyStrip, List.cons_append, List.dropWhile_cons, hc]
    simp only [Bool.false_eq_true, if_false]
    rw [show c :: (cs ++ ['\n']) = (c :: cs) ++ ['\n'] from rfl, List.reverse_append,
      show (['\n'] : List Char).reverse = ['\n'] from rfl, List.singleton_append,
      List.dropWhile_cons]
    simp only [show isPySpace '\n' = true from rfl, if_true]
    rw [dropWhile_eq_self_of_all (by rwa [List.all_reverse]), List.reverse_reverse]

theorem takeWhile_append_dot (a fp : List Char) (ha : a.all isDigit = true) :
    (a ++ '.' :: fp).takeWhile isDigit = a := by
  induction a with
  | nil =>
    rw [List.nil_append, List.takeWhile_cons, if_neg]
    simp only [show isDigit '.' = false from rfl, Bool.false_eq_true, not_false_eq_true]
  | cons c cs ih =>
    rw [List.all_cons, Bool.and_eq_true] at ha
    rw [List.cons_append, List.takeWhile_cons, if_pos ha.1, ih ha.2]

theorem dropWhile_append_dot (a fp : List Char) (ha : a.all isDigit = true) :
    (a ++ '.' :: fp).dropWhile isDigit = '.' :: fp := by
  induction a with
  | nil =>
    rw [List.nil_append, List.dropWhile_cons]
    simp only [show isDigit '.' = false from rfl, Bool.false_eq_true, if_false]
  | cons c cs ih =>
    rw [List.all_cons, Bool.and_eq_true] at ha
    rw [List.cons_append, List.dropWhile_cons, ha.1]
    simp only [if_true]
    exact ih ha.2

theorem pyFloatUnsigned_digits (ip fp : List Char) (hip : ip.all isDigit = true)
    (hip0 : ip ≠ []) (hfp : fp.all isDigit = true) :
    pyFloatUnsigned (ip ++ '.' :: fp) =
      some (mkRat (digitsToNat ip * 10 ^ fp.length + digitsToNat fp) (10 ^ fp.length)) := by
  simp only [pyFloatUnsigned, takeWhile_append_dot ip fp hip, dropWhile_append_dot ip fp hip]
  rw [if_pos ⟨hfp, Or.inl hip0⟩]

theorem isDigit_not_space {c : Char} (h : isDigit c = true) : isPySpace c = false := by
  simp only [isDigit, Bool.and_eq_true, decide_eq_true_eq] at h
  obtain ⟨h1, h2⟩ := h
  rw [isPySpace]
  simp only [Bool.or_eq_false_iff, decide_eq_false_iff_not]
  refine ⟨⟨⟨?_, ?_⟩, ?_⟩, ?_⟩ <;> (rintro rfl; revert h1 h2; decide)

theorem formatFixed2_chars (q : ℚ) :
    ∀ c ∈ formatFixed2 q, isDigit c = true ∨ c = '.' ∨ c = '-' := by
  intro c hc
  simp only [formatFixed2] at hc
  by_cases hn : fix2Int q < 0 <;>
    simp only [hn, if_true, if_false, List.cons_append, List.nil_append,
      List.mem_append, List.mem_cons, List.not_mem_nil, or_false, false_or] at hc
  · rcases hc with rfl | hc | rfl | hc
    · exact Or.inr (Or.inr rfl)
    · exact Or.inl (List.all_eq_true.mp (natChars_all_digits _) c hc)
    · exact Or.inr (Or.inl rfl)
    · exact Or.inl (List.all_eq_true.mp (padChars_all_digits _ _) c hc)
  · rcases hc with hc | rfl | hc
    · exact Or.inl (List.all_eq_true.mp (natChars_all_digits _) c hc)
    · exact Or.inr (Or.inl rfl)
    · exact Or.inl (List.all_eq_true.mp (padChars_all_digits _ _) c hc)

theorem formatFixed2_no_space (q : ℚ) :
    (formatFixed2 q).all (fun c => !isPySpace c) = true := by
  rw [List.all_eq_true]
  intro c hc
  rcases formatFixed2_chars q c hc with h | h | h
  · simp [isDigit_not_space h]
  · subst h; decide
  · subst h; decide

theorem formatFixed2_no_comma (q : ℚ) : ∀ c ∈ formatFixed2 q, ¬ c = ',' := by
  intro c hc he
  subst he
  rcases formatFixed2_chars q ',' hc with h | h | h
  · exact absurd h (by decide)
  · exact absurd h (by decide)
  · exact absurd h (by decide)

theorem formatFixed2_newline_no_comma (q : ℚ) :
    ∀ c ∈ formatFixed2 q ++ ['\n'], ¬ c = ',' := by
  intro c hc
  rcases List.mem_append.mp hc with h | h
  · exact formatFixed2_no_comma q c h
  · rw [List.mem_singleton] at h
    subst h
    decide

theorem comma_not_mem_padChars (w n : ℕ) : ¬ (',' ∈ padChars w n) :=
  fun h => absurd (List.all_eq_true.mp (padChars_all_digits w n) ',' h) (by decide)

theorem formatTimestamp_no_comma (t : DateTime) : ∀ c ∈ formatTimestamp t, ¬ c = ',' := by
  intro c hc he
  subst he
  rw [formatTimestamp] at hc
  simp only [List.mem_append, List.mem_cons, List.not_mem_nil, or_false, false_or] at hc
  simp only [comma_not_mem_padChars, false_or, or_false] at hc
  exact absurd hc (by decide)

theorem pyFloatUnsigned_formatFixed2_core (n : ℤ) :
    pyFloatUnsigned (natChars (n.natAbs / 100) ++ '.' :: padChars 2 (n.natAbs % 100)) =
      some (mkRat (n.natAbs : ℤ) 100) := by
  have hB : n.natAbs % 100 < 10 ^ 2 := by
    have := Nat.mod_lt n.natAbs (show 0 < 100 by norm_num)
    omega
  rw [pyFloatUnsigned_digits _ _ (natChars_all_digits _) (natChars_ne_nil _)
    (padChars_all_digits _ _)]
  rw [padChars_length 2 _ hB, digitsToNat_natChars, digitsToNat_padChars]
  have hAB : ((n.natAbs / 100 : ℕ) : ℤ) * 10 ^ 2 + ((n.natAbs % 100 : ℕ) : ℤ)
      = (n.natAbs : ℤ) := by
    have h1 : (10 : ℤ) ^ 2 = 100 := by norm_num
    rw [h1]
    omega
  rw [hAB]
  norm_num

theorem pyFloat_of_strip_cons (cs0 : List Char) (c : Char) (rest : List Char)
    (h : pyStrip cs0 = c :: rest) :
    pyFloat cs0 = if c = '-' then (pyFloatUnsigned rest).map (fun q => -q)
      else if c = '+' then pyFloatUnsigned rest
      else pyFloatUnsigned (c :: rest) := by
  rw [pyFloat, h]

theorem pyFloat_formatFixed2_of_strip (q : ℚ) (cs : List Char)
    (h : pyStrip cs = formatFixed2 q) : pyFloat cs = some (fix2Rat q) := by
  by_cases hn : fix2Int q < 0
  · have hform : formatFixed2 q =
        '-' :: (natChars ((fix2Int q).natAbs / 100) ++
          '.' :: padChars 2 ((fix2Int q).natAbs % 100)) := by
      rw [formatFixed2]
      simp [hn]
    rw [pyFloat_of_strip_cons cs '-' _ (by rw [h, hform]), if_pos rfl,
      pyFloatUnsigned_formatFixed2_core, fix2Rat]
    simp only [Option.map_some']
    have hofn : -(((fix2Int q).natAbs : ℤ)) = fix2Int q := by omega
    rw [Rat.mkRat_eq_divInt, Rat.mkRat_eq_divInt, Rat.neg_divInt, hofn]
  · have hform : formatFixed2 q =
        natChars ((fix2Int q).natAbs / 100) ++
          '.' :: padChars 2 ((fix2Int q).natAbs % 100) := by
      rw [formatFixed2]
      simp [hn]
    obtain ⟨c, cs', hcc⟩ : ∃ c cs',
        natChars ((fix2Int q).natAbs / 100) = c :: cs' := by
      rcases hx : natChars ((fix2Int q).natAbs / 100) with _ | ⟨c, cs'⟩
      · exact absurd hx (natChars_ne_nil _)
      · exact ⟨c, cs', rfl⟩
    have hcd : isDigit c = true := by
      have hall := natChars_all_digits ((fix2Int q).natAbs / 100)
      rw [hcc, List.all_cons, Bool.and_eq_true] at hall
      exact hall.1
    have hcm : ¬ c = '-' := fun he => by subst he; exact absurd hcd (by decide)
    have hcp : ¬ c = '+' := fun he => by subst he; exact absurd hcd (by decide)
    rw [pyFloat_of_strip_cons cs c (cs' ++ '.' :: padChars 2 ((fix2Int q).natAbs % 100))
      (by rw [h, hform, hcc, List.cons_append]), if_neg hcm, if_neg hcp]
    rw [← List.cons_append, ← hcc, pyFloatUnsigned_formatFixed2_core, fix2Rat]
    have hofn : (((fix2Int q).natAbs : ℤ)) = fix2Int q := by omega
    rw [hofn]

theorem pyFloat_formatFixed2 (q : ℚ) : pyFloat (formatFixed2 q) = some (fix2Rat q) :=
  pyFloat_formatFixed2_of_strip q _ (pyStrip_of_no_space (formatFixed2_no_space q))

theorem pyFloat_formatFixed2_newline (q : ℚ) :
    pyFloat (formatFixed2 q ++ ['\n']) = some (fix2Rat q) :=
  pyFloat_formatFixed2_of_strip q _ (pyStrip_append_newline (formatFixed2_no_space q))

theorem fix2Rat_idem (q : ℚ) : fix2Rat (fix2Rat q) = fix2Rat q := by
  show mkRat (fix2Int (mkRat (fix2Int q) 100)) 100 = mkRat (fix2Int q) 100
  congr 1
  rw [fix2Int, Rat.mkRat_eq_div, show ((100 : ℕ) : ℚ) = (100 : ℚ) by norm_num,
    div_mul_cancel₀ _ (by norm_num : (100 : ℚ) ≠ 0), round_intCast]

theorem splitOn_no_sep (sep : Char) (a : List Char) (h : ∀ c ∈ a, ¬ c = sep) :
    splitOn sep a = [a] := by
  induction a with
  | nil => rfl
  | cons c cs ih =>
    rw [splitOn, if_neg (h c (List.mem_cons_self _ _)),
      ih (fun x hx => h x (List.mem_cons_of_mem _ hx))]

theorem splitOn_append (sep : Char) (a rest : List Char) (h : ∀ c ∈ a, ¬ c = sep) :
    splitOn sep (a ++ sep :: rest) = a :: splitOn sep rest := by
  induction a with
  | nil =>
    rw [List.nil_append, splitOn, if_pos rfl]
  | cons c cs ih =>
    rw [List.cons_append, splitOn, if_neg (h c (List.mem_cons_self _ _)),
      ih (fun x hx => h x (List.mem_cons_of_mem _ hx))]

theorem formatRow_split (t : DateTime) (v : Values) :
    splitOn ',' (formatRow t v).data =
      [formatTimestamp t, formatFixed2 v.temp_sensor, formatFixed2 v.freq_sensor,
       formatFixed2 v.ticks_uC, formatFixed2 v.sky_brightness ++ ['\n']] := by
  show splitOn ',' (formatTimestamp t ++ ',' :: formatFixed2 v.temp_sensor ++
      ',' :: formatFixed2 v.freq_sensor ++ ',' :: formatFixed2 v.ticks_uC ++
      ',' :: formatFixed2 v.sky_brightness ++ ['\n']) = _
  simp only [List.append_assoc, List.cons_append]
  rw [splitOn_append ',' _ _ (formatTimestamp_no_comma t),
    splitOn_append ',' _ _ (formatFixed2_no_comma v.temp_sensor),
    splitOn_append ',' _ _ (formatFixed2_no_comma v.freq_sensor),
    splitOn_append ',' _ _ (formatFixed2_no_comma v.ticks_uC),
    splitOn_no_sep ',' _ (formatFixed2_newline_no_comma v.sky_brightness)]

theorem cropHistory_singleton (r : Report) : cropHistory [r] = [r] := by
  rw [cropHistory, List.mergeSort_of_sorted (List.pairwise_singleton _ _)]
  rfl

theorem parseRow_format (t : DateTime) (v : Values) (ht : TimeValid t) :
    parseRow (splitOn ',' (formatRow t v).data) =
      some { values := { temp_sensor := fix2Rat v.temp_sensor,
                         freq_sensor := fix2Rat v.freq_sensor,
                         ticks_uC := fix2Rat v.ticks_uC,
                         sky_brightness := fix2Rat v.sky_brightness }, time := t } := by
  rw [formatRow_split]
  simp [parseRow, pyFloat_formatFixed2, pyFloat_formatFixed2_newline,
    parseTimestamp_format t ht]

/-- C8: one data row written by a flush, reloaded by the restart loader,
reproduces the written report: the reloaded timestamp equals the flush
timestamp at seconds precision, and each reloaded field is exactly the
two-decimal rounding of the original field — so original and reloaded
values agree to 2-decimal precision (the rounding is idempotent). -/
theorem log_roundtrip (t : DateTime) (v : Values) (ht : TimeValid t) :
    loadHistory (some [headerLine, formatRow t v]) =
      some [{ values := { temp_sensor := fix2Rat v.temp_sensor,
                          freq_sensor := fix2Rat v.freq_sensor,
                          ticks_uC := fix2Rat v.ticks_uC,
                          sky_brightness := fix2Rat v.sky_brightness }, time := t }] ∧
    ∀ q : ℚ, fix2Rat (fix2Rat q) = fix2Rat q := by
  constructor
  · have hlen : (splitOn ',' (formatRow t v).data).length = 5 := by
      rw [formatRow_split]
      rfl
    simp [loadHistory, loadLines, hlen, parseRow_format t v ht, cropHistory_singleton]
  · exact fix2Rat_idem

/-- Witness for C8 at a concrete timestamp and value set. -/
theorem log_roundtrip_witness :
    loadHistory (some [headerLine,
        formatRow sampleTime { temp_sensor := 1, freq_sensor := 2, ticks_uC := 3,
                               sky_brightness := 4 }]) =
      some [{ values := { temp_sensor := fix2Rat 1, freq_sensor := fix2Rat 2,
                          ticks_uC := fix2Rat 3, sky_brightness := fix2Rat 4 },
              time := sampleTime }] :=
  (log_roundtrip sampleTime
    { temp_sensor := 1, freq_sensor := 2, ticks_uC := 3, sky_brightness := 4 }
    (by decide)).1

end SQM
